import Mathlib

/-!
Verification of `obsidian-remote-attachments` (src/main.ts) against its
natural-language specification.

The plugin intercepts drag-and-drop events, filters for image files, uploads
each image to an S3-compatible store (Cloudflare R2) and inserts a markdown
link at an advancing cursor position.  The development below is a shallow
embedding of `src/main.ts`:

* `R2Config`, `DEFAULT_SETTINGS` fields — the settings record (lines 15-39);
* `trimSlashes`, `remoteKey` — key derivation (lines 154-161);
* `stripTrailingSlash`, `fileUrl` — URL construction (lines 177-180);
* `markdownLink` — link synthesis (lines 183-188);
* `splitNl`, `insertedLines`, `lastLineLength`, `updateCursor` — cursor
  arithmetic after insertion (lines 194-202);
* `processOne`, `processFilesAux`, `processFiles` — the per-file loop of the
  `handleDrop` method (lines 135-217), with external effects (put-operations,
  editor insertions, notices) reified as an `Event` trace and the outcome of
  the remote `send` call supplied by an oracle;
* `loadSettingsFn` — `loadSettings` / `Object.assign` shallow merge
  (lines 224-226);
* `handleDragOverFn`, `handleDropListener` — the DOM-level listeners
  (lines 55-102).
-/

namespace RemoteAttachments

/-- The `r2Config` sub-record of `MyPluginSettings` (main.ts lines 17-25). -/
structure R2Config where
  bucketName : String
  accessKeyId : String
  secretAccessKey : String
  endpoint : String
  region : String
  publicUrl : String
  directory : String
deriving DecidableEq, Repr

/-- `DEFAULT_SETTINGS.r2Config` (main.ts lines 30-38). -/
def defaultR2Config : R2Config :=
  { bucketName := "", accessKeyId := "", secretAccessKey := "",
    endpoint := "", region := "auto", publicUrl := "", directory := "" }

/-- A dropped file as captured by the listener: `name`, `type` (MIME string,
held here as `mimeType` since `type` is reserved in Lean), and the raw bytes
(the `ArrayBuffer` contents, modelled as a list of byte values). -/
structure DroppedFile where
  name : String
  mimeType : String
  bytes : List Nat
deriving DecidableEq, Repr

/-- An `EditorPosition`: `line` and `ch` (column). -/
structure Pos where
  line : Nat
  ch : Nat
deriving DecidableEq, Repr

/-- Trimming of a run of `/` characters from the front of a character list;
`dropWhile` of the predicate `c == '/'`. -/
def dropSlashRun (l : List Char) : List Char :=
  l.dropWhile (fun c => c == '/')

/-- Embeds `directory.replace(/^\/+|\/+$/g, '')` (main.ts line 160): the
regex removes the run of slashes at the start and the run of slashes at the
end of the string.  Realised by dropping the trailing run (via reverse) and
then the leading run. -/
def trimSlashes (s : String) : String :=
  String.mk (dropSlashRun ((dropSlashRun s.toList.reverse).reverse))

/-- Key derivation (main.ts lines 154-161): `baseFileName` is
`timestamp + "_" + file.name`; when the configured directory is non-empty
(JS truthiness of a string) it is prefixed, slash-trimmed, with a `/`
separator. -/
def remoteKey (directory : String) (timestamp : Nat) (name : String) : String :=
  let baseFileName := toString timestamp ++ "_" ++ name
  if directory ≠ "" then trimSlashes directory ++ "/" ++ baseFileName
  else baseFileName

/-- URL base normalisation (main.ts lines 177-179):
`publicUrl.endsWith('/') ? publicUrl.slice(0, -1) : publicUrl`.  A string
ends with `'/'` exactly when its last character is `'/'`; `slice(0, -1)`
drops that last character. -/
def stripTrailingSlash (u : String) : String :=
  if u.toList.getLast? = some '/' then String.mk u.toList.dropLast else u

/-- URL construction (main.ts line 180): `baseUrl + "/" + fileName`. -/
def fileUrl (publicUrl key : String) : String :=
  stripTrailingSlash publicUrl ++ "/" ++ key

/-- JS `s.startsWith(pre)`: `pre`'s characters are a prefix of `s`'s. -/
def strBeginsWith (s pre : String) : Bool :=
  pre.toList.isPrefixOf s.toList

/-- Link synthesis (main.ts lines 183-188): image MIME types
(`file.type.startsWith('image/')`) get a `![..]` embed, anything else a
plain `[..]` link. -/
def markdownLink (f : DroppedFile) (url : String) : String :=
  if strBeginsWith f.mimeType "image/" then "![" ++ f.name ++ "](" ++ url ++ ")"
  else "[" ++ f.name ++ "](" ++ url ++ ")"

/-- JS `s.split('\n')` on the character list: splits at every newline,
keeping empty segments, and always returns at least one segment. -/
def splitNl : List Char → List (List Char)
  | [] => [[]]
  | c :: cs =>
    if c = '\n' then [] :: splitNl cs
    else
      match splitNl cs with
      | [] => [[c]]
      | s :: rest => (c :: s) :: rest

/-- `markdownLink.split('\n').length - 1` (main.ts line 194). -/
def insertedLines (s : String) : Nat :=
  (splitNl s.toList).length - 1

/-- `markdownLink.split('\n').pop()?.length || 0` (main.ts line 195):
`split` is never empty, so `pop()` is its last element. -/
def lastLineLength (s : String) : Nat :=
  ((splitNl s.toList).getLastD []).length

/-- Cursor recomputation after inserting `s` at `p` (main.ts lines 194-202):
with embedded newlines the line advances by the newline count and the column
becomes the last segment's length; otherwise the column advances by the last
(= only) segment's length. -/
def updateCursor (s : String) (p : Pos) : Pos :=
  if insertedLines s > 0 then { line := p.line + insertedLines s, ch := lastLineLength s }
  else { line := p.line, ch := p.ch + lastLineLength s }

/-- The configuration precondition (main.ts lines 138-139): any of the four
required fields empty (JS falsy string) makes the per-file check throw. -/
def configIncomplete (c : R2Config) : Bool :=
  c.bucketName = "" || c.accessKeyId = "" || c.secretAccessKey = "" || c.endpoint = ""

/-- Observable external effects of the pipeline: an S3 put-operation
(`s3Client.send` of a `PutObjectCommand`), an editor insertion
(`editor.replaceRange`), or a `Notice`. -/
inductive Event where
  | putObject (bucket key : String) (body : List Nat) (contentType : String)
  | insertText (text : String) (at_ : Pos)
  | notice (msg : String)
deriving DecidableEq, Repr

/-- Whether an event is a put-operation. -/
def Event.isPut : Event → Bool
  | .putObject _ _ _ _ => true
  | _ => false

/-- Whether an event is an editor insertion. -/
def Event.isInsert : Event → Bool
  | .insertText _ _ => true
  | _ => false

/-- The message of the `Error` thrown by the configuration check
(main.ts line 140). -/
def configErrMsg : String :=
  "R2 configuration is incomplete. Please check the plugin settings."

/-- The per-file failure notice of the catch block (main.ts line 215). -/
def failNotice (name msg : String) : String :=
  "Failed to upload file \"" ++ name ++ "\": " ++ msg

/-- The per-file success notice (main.ts line 211). -/
def successNotice (name : String) : String :=
  "File \"" ++ name ++ "\" has been uploaded."

/-- One iteration of the upload loop (main.ts lines 135-216) for the file at
index `i` of a batch of `n` files, starting at cursor `cur`.

`cfg` is `this.settings.r2Config` as read during this iteration, `timestamp`
is `new Date().getTime()` for this iteration, and `outcome` is the oracle
for the awaited `s3Client.send`: `none` means the put resolves, `some msg`
means it rejects with an error whose message is `msg` (the put-operation was
still invoked).  Returns the emitted events and the updated cursor; on any
caught error the cursor is returned unchanged.

The trailing-newline condition embeds
`files.length > 1 && file !== files[files.length - 1]` by index (each `File`
object in a `FileList` is a distinct object, so the reference inequality is
the position inequality `i ≠ n - 1`). -/
def processOne (cfg : R2Config) (timestamp : Nat) (outcome : Option String)
    (i n : Nat) (f : DroppedFile) (cur : Pos) : List Event × Pos :=
  if configIncomplete cfg then
    ([.notice (failNotice f.name configErrMsg)], cur)
  else
    let key := remoteKey cfg.directory timestamp f.name
    match outcome with
    | some msg =>
      ([.putObject cfg.bucketName key f.bytes f.mimeType,
        .notice (failNotice f.name msg)], cur)
    | none =>
      let link := markdownLink f (fileUrl cfg.publicUrl key)
      let cur1 := updateCursor link cur
      if n > 1 ∧ i ≠ n - 1 then
        ([.putObject cfg.bucketName key f.bytes f.mimeType,
          .insertText link cur,
          .insertText "\n" cur1,
          .notice (successNotice f.name)],
         { line := cur1.line + 1, ch := 0 })
      else
        ([.putObject cfg.bucketName key f.bytes f.mimeType,
          .insertText link cur,
          .notice (successNotice f.name)], cur1)

/-- The sequential loop over the batch (main.ts lines 133-217), carrying the
running cursor.  `cfgAt i`, `clock i` and `outcomes i` supply, for the file
at index `i`, the settings as re-read in that iteration, the per-file
timestamp, and the result of the awaited upload. -/
def processFilesAux (cfgAt : Nat → R2Config) (clock : Nat → Nat)
    (outcomes : Nat → Option String) (n : Nat) :
    Nat → List DroppedFile → Pos → List Event × Pos
  | _, [], cur => ([], cur)
  | i, f :: fs, cur =>
    let r := processOne (cfgAt i) (clock i) (outcomes i) i n f cur
    let rest := processFilesAux cfgAt clock outcomes n (i + 1) fs r.2
    (r.1 ++ rest.1, rest.2)

/-- The whole batch, started at index 0 with `n = files.length`. -/
def processFiles (cfgAt : Nat → R2Config) (clock : Nat → Nat)
    (outcomes : Nat → Option String) (files : List DroppedFile) (cur : Pos) :
    List Event × Pos :=
  processFilesAux cfgAt clock outcomes files.length 0 files cur

/-- The image filter used by both DOM listeners:
`file.type.startsWith('image/')`. -/
def isImageFile (f : DroppedFile) : Bool :=
  strBeginsWith f.mimeType "image/"

/-- The `handleDrop` method (main.ts lines 120-218): bails out on an empty
file list, then on a missing active file (`activeFile = false`) with a
notice, otherwise runs the upload loop from the captured cursor. -/
def handleDropMethod (cfgAt : Nat → R2Config) (clock : Nat → Nat)
    (outcomes : Nat → Option String) (fileData : List DroppedFile)
    (activeFile : Bool) (cursor : Pos) : List Event × Pos :=
  if fileData = [] then ([], cursor)
  else if !activeFile then ([.notice "No active file detected."], cursor)
  else processFiles cfgAt clock outcomes fileData cursor

/-- Result of a DOM listener: whether the event's default handling was
suppressed (`preventDefault`/`stopPropagation` called) and the trace of
observable effects. -/
structure ListenerResult where
  defaultPrevented : Bool
  events : List Event
deriving DecidableEq, Repr

/-- The `dragover` listener (main.ts lines 55-66): suppresses the default
only when the payload is non-empty and holds at least one image-typed file;
it produces no other effect.  Returns `defaultPrevented`. -/
def handleDragOverFn (files : List DroppedFile) : Bool :=
  if files ≠ [] then files.any isImageFile else false

/-- The `drop` listener (main.ts lines 68-102): returns untouched on an
empty payload or one with no image-typed file (before `preventDefault`);
otherwise suppresses default handling for the whole event, requires an
active Markdown view (whose cursor is `some cursor`), builds `fileData` from
the image files only, and calls the `handleDrop` method. -/
def handleDropListener (cfgAt : Nat → R2Config) (clock : Nat → Nat)
    (outcomes : Nat → Option String) (files : List DroppedFile)
    (activeView : Option Pos) (activeFile : Bool) : ListenerResult :=
  if files = [] then { defaultPrevented := false, events := [] }
  else
    let imageFiles := files.filter isImageFile
    if imageFiles = [] then { defaultPrevented := false, events := [] }
    else
      match activeView with
      | none => { defaultPrevented := true,
                  events := [.notice "No active Markdown file found."] }
      | some cursor =>
        { defaultPrevented := true,
          events := (handleDropMethod cfgAt clock outcomes imageFiles activeFile cursor).1 }

/-- A persisted `r2Config` object as it may come back from `loadData()`:
each field individually present or absent. -/
structure PersistedR2Config where
  bucketName : Option String
  accessKeyId : Option String
  secretAccessKey : Option String
  endpoint : Option String
  region : Option String
  publicUrl : Option String
  directory : Option String
deriving DecidableEq, Repr

/-- The persisted top-level settings object: `mySetting` and `r2Config`
keys, each individually present or absent; the whole object may be absent
(`loadData()` returning `null` on first run). -/
structure PersistedData where
  mySetting : Option String
  r2Config : Option PersistedR2Config
deriving DecidableEq, Repr

/-- The in-memory settings after `loadSettings()`: the top-level keys are
always present, but the fields inside `r2Config` may be `undefined` (hence
`Option`) because `Object.assign` copies the persisted `r2Config` object
wholesale. -/
structure LoadedSettings where
  mySetting : String
  r2Config : PersistedR2Config
deriving DecidableEq, Repr

/-- `DEFAULT_SETTINGS.r2Config` seen as a fully-populated persisted record
(all fields defined). -/
def defaultPersistedR2 : PersistedR2Config :=
  { bucketName := some "", accessKeyId := some "", secretAccessKey := some "",
    endpoint := some "", region := some "auto", publicUrl := some "",
    directory := some "" }

/-- `loadSettings()` (main.ts lines 224-226):
`Object.assign({}, DEFAULT_SETTINGS, await this.loadData())` — a SHALLOW
merge: each top-level key (`mySetting`, `r2Config`) present in the persisted
data replaces the default wholesale; a `null` result leaves the defaults. -/
def loadSettingsFn (data : Option PersistedData) : LoadedSettings :=
  match data with
  | none => { mySetting := "default", r2Config := defaultPersistedR2 }
  | some d =>
    { mySetting := d.mySetting.getD "default",
      r2Config := d.r2Config.getD defaultPersistedR2 }

/-- Formalises the claim's "double slash at the join point" of
`baseUrl + "/" + fileName`: the joined URL carries `//` at the join exactly
when the stripped base still ends in a slash or the key starts with one. -/
def doubleSlashAtJoin (publicUrl key : String) : Bool :=
  decide ((stripTrailingSlash publicUrl).toList.getLast? = some '/')
    || decide (key.toList.head? = some '/')

section Helpers

/-- The first character surviving `dropSlashRun` is never a slash. -/
theorem head?_dropSlashRun (l : List Char) : (dropSlashRun l).head? ≠ some '/' := by
  induction l with
  | nil => simp [dropSlashRun]
  | cons c cs ih =>
    by_cases h : c = '/'
    · simpa [dropSlashRun, List.dropWhile_cons, h] using ih
    · simp [dropSlashRun, List.dropWhile_cons, h]

/-- `dropWhile` only removes a prefix, so a last element of the result is a
last element of the input. -/
theorem getLast?_dropSlashRun (l : List Char) (c : Char)
    (h : (dropSlashRun l).getLast? = some c) : l.getLast? = some c := by
  induction l with
  | nil => simp [dropSlashRun] at h
  | cons a as ih =>
    by_cases ha : a = '/'
    · have h' : (dropSlashRun as).getLast? = some c := by
        simpa [dropSlashRun, List.dropWhile_cons, ha] using h
      have hlast := ih h'
      have hne : as ≠ [] := by
        intro hnil
        simp [hnil, dropSlashRun] at h'
      match as, hne, hlast with
      | b :: bs, _, hlast =>
        rw [List.getLast?_cons_cons]
        exact hlast
    · simpa [dropSlashRun, List.dropWhile_cons, ha] using h

/-- The trimmed directory never starts with a slash. -/
theorem trimSlashes_head (s : String) :
    (trimSlashes s).toList.head? ≠ some '/' := by
  have : (trimSlashes s).toList
      = dropSlashRun ((dropSlashRun s.toList.reverse).reverse) := rfl
  rw [this]
  exact head?_dropSlashRun _

/-- The trimmed directory never ends with a slash. -/
theorem trimSlashes_getLast (s : String) :
    (trimSlashes s).toList.getLast? ≠ some '/' := by
  have hl : (trimSlashes s).toList
      = dropSlashRun ((dropSlashRun s.toList.reverse).reverse) := rfl
  rw [hl]
  intro h
  have h1 : ((dropSlashRun s.toList.reverse).reverse).getLast? = some '/' :=
    getLast?_dropSlashRun _ _ h
  rw [List.getLast?_reverse] at h1
  exact head?_dropSlashRun _ h1

end Helpers

/-- C1: the remote key is the slash-trimmed directory, a `/`, then
`timestamp_filename` when the configured directory is non-empty, and plain
`timestamp_filename` when it is empty; the trimmed directory carries no
leading or trailing slash. -/
theorem remoteKey_spec (d : String) (t : Nat) (name : String) :
    (d ≠ "" →
      remoteKey d t name = trimSlashes d ++ "/" ++ (toString t ++ "_" ++ name)) ∧
    (d = "" → remoteKey d t name = toString t ++ "_" ++ name) ∧
    (trimSlashes d).toList.head? ≠ some '/' ∧
    (trimSlashes d).toList.getLast? ≠ some '/' := by
  refine ⟨fun h => ?_, fun h => ?_, trimSlashes_head d, trimSlashes_getLast d⟩
  · simp [remoteKey, h, String.append_assoc]
  · simp [remoteKey, h]

/-- Witness for C1: the spec's worked example — directory `img`, timestamp
1700000000000, file `cat.png`. -/
theorem remoteKey_spec_witness :
    remoteKey "img" 1700000000000 "cat.png" = "img/1700000000000_cat.png" := by
  have h := (remoteKey_spec "img" 1700000000000 "cat.png").1 (by decide)
  rw [h]
  decide

/-- C2 counterexample: a `publicUrl` with two trailing slashes keeps one of
them after `slice(0, -1)`, so the join introduces a double slash — the
claim's "no double slash ... including values that ... had several" fails.
A second double-slash source: a configured directory of only slashes (`"/"`
is truthy) trims to nothing, so the remote key itself begins with `/` and
the join doubles even against a `publicUrl` with no trailing slash. -/
theorem fileUrl_doubleSlash_cex :
    (fileUrl "https://pub.example.com//" "1700000000000_cat.png"
       = "https://pub.example.com//1700000000000_cat.png" ∧
     doubleSlashAtJoin "https://pub.example.com//" "1700000000000_cat.png" = true) ∧
    (remoteKey "/" 7 "a.png" = "/7_a.png" ∧
     fileUrl "https://x" (remoteKey "/" 7 "a.png") = "https://x//7_a.png" ∧
     doubleSlashAtJoin "https://x" (remoteKey "/" 7 "a.png") = true) := by
  refine ⟨⟨?_, ?_⟩, ?_, ?_, ?_⟩ <;> decide

/-- C2 amended: the generated URL always equals the `publicUrl` with at most
one trailing slash removed, then `/` and the key; no double slash arises at
the join provided the `publicUrl` does not end in two slashes and the remote
key does not itself begin with one — and for a non-empty configured
directory the derived key begins with a slash exactly when the directory
trims to the empty string, i.e. consists entirely of slashes. -/
theorem fileUrl_spec (pub key : String)
    (h1 : ¬ ['/', '/'] <:+ pub.toList)
    (h2 : key.toList.head? ≠ some '/') :
    (fileUrl pub key = stripTrailingSlash pub ++ "/" ++ key ∧
     doubleSlashAtJoin pub key = false) ∧
    (∀ (d : String) (t : Nat) (name : String), d ≠ "" →
      ((remoteKey d t name).toList.head? = some '/' ↔ trimSlashes d = "")) := by
  refine ⟨⟨rfl, ?_⟩, ?_⟩
  have hbase : (stripTrailingSlash pub).toList.getLast? ≠ some '/' := by
    by_cases hl : pub.toList.getLast? = some '/'
    · have hs : stripTrailingSlash pub = String.mk pub.toList.dropLast :=
        if_pos hl
      rw [hs]
      intro hd
      have hd' : (pub.toList.dropLast).getLast? = some '/' := hd
      have e1 : pub.toList.dropLast.dropLast ++ ['/'] = pub.toList.dropLast :=
        List.dropLast_append_getLast? _ hd'
      have e2 : pub.toList.dropLast ++ ['/'] = pub.toList :=
        List.dropLast_append_getLast? _ hl
      have hsfx : pub.toList.dropLast.dropLast ++ ['/', '/'] = pub.toList := by
        rw [← e2, ← e1]
        simp
      exact h1 ⟨pub.toList.dropLast.dropLast, hsfx⟩
    · have hs : stripTrailingSlash pub = pub := if_neg hl
      rw [hs]
      exact hl
  show (decide ((stripTrailingSlash pub).toList.getLast? = some '/')
      || decide (key.toList.head? = some '/')) = false
  rw [decide_eq_false hbase, decide_eq_false h2]
  rfl
  intro d t name hd
  have hre : remoteKey d t name
      = trimSlashes d ++ "/" ++ (toString t ++ "_" ++ name) := by
    simp [remoteKey, hd, String.append_assoc]
  have hdata : (remoteKey d t name).toList
      = (trimSlashes d).toList ++ ('/' :: (toString t ++ "_" ++ name).toList) := by
    rw [hre]
    show (trimSlashes d ++ "/" ++ (toString t ++ "_" ++ name)).data = _
    rw [String.data_append, String.data_append, List.append_assoc]
    rfl
  rw [hdata]
  constructor
  · intro hh
    by_contra hne
    cases hl : (trimSlashes d).toList with
    | nil =>
      apply hne
      apply String.ext
      exact hl
    | cons a as =>
      rw [hl] at hh
      simp only [List.cons_append, List.head?_cons, Option.some.injEq] at hh
      have hhead := trimSlashes_head d
      rw [hl] at hhead
      simp only [List.head?_cons, ne_eq, Option.some.injEq] at hhead
      exact hhead hh
  · intro hh
    rw [hh]
    simp

/-- Witness for C2: the spec's example base URL with one trailing slash and
its example key produce the expected URL with no double slash at the join,
and the key derived from directory `img` does not begin with a slash (as
`img` does not trim to the empty string). -/
theorem fileUrl_spec_witness :
    (¬ ['/', '/'] <:+ ("https://pub.example.com/" : String).toList) ∧
    (("img/1700000000000_cat.png" : String).toList.head? ≠ some '/') ∧
    (("img" : String) ≠ "") ∧
    (fileUrl "https://pub.example.com/" "img/1700000000000_cat.png"
        = stripTrailingSlash "https://pub.example.com/" ++ "/" ++ "img/1700000000000_cat.png" ∧
     doubleSlashAtJoin "https://pub.example.com/" "img/1700000000000_cat.png" = false) ∧
    ((remoteKey "img" 1700000000000 "cat.png").toList.head? = some '/' ↔
      trimSlashes "img" = "") :=
  ⟨by decide, by decide, by decide,
   (fileUrl_spec "https://pub.example.com/" "img/1700000000000_cat.png"
     (by decide) (by decide)).1,
   (fileUrl_spec "https://pub.example.com/" "img/1700000000000_cat.png"
     (by decide) (by decide)).2 "img" 1700000000000 "cat.png" (by decide)⟩

/-- A persisted configuration that carries an `r2Config` object in which
only the `region` field is absent. -/
def persistedNoRegion : PersistedData :=
  { mySetting := none,
    r2Config := some
      { bucketName := some "b", accessKeyId := some "k",
        secretAccessKey := some "s", endpoint := some "https://x",
        region := none, publicUrl := some "https://pub.example.com/",
        directory := some "img" } }

/-- C5 counterexample: `Object.assign` merges shallowly, so a persisted
configuration that omits only the `region` field inside `r2Config` does NOT
fall back to `region = "auto"` — the persisted `r2Config` replaces the
default record wholesale and `region` comes out undefined. -/
theorem loadSettings_shallow_cex :
    (loadSettingsFn (some persistedNoRegion)).r2Config.region = none ∧
    (loadSettingsFn (some persistedNoRegion)).r2Config.region ≠ some "auto" := by
  constructor
  · rfl
  · decide

/-- C5 amended: `loadSettings()` merges field-by-field at the TOP level only
(`mySetting`, `r2Config`): a missing top-level key falls back to its default
(in particular an absent `r2Config` yields `region = "auto"`), but a present
`r2Config` replaces the default record wholesale, so fields omitted inside
it are not defaulted. -/
theorem loadSettings_spec :
    loadSettingsFn none
        = { mySetting := "default", r2Config := defaultPersistedR2 } ∧
    (∀ ms : Option String,
      (loadSettingsFn (some { mySetting := ms, r2Config := none })).r2Config.region
        = some "auto") ∧
    (∀ d : PersistedData,
      (loadSettingsFn (some d)).mySetting = d.mySetting.getD "default" ∧
      (loadSettingsFn (some d)).r2Config = d.r2Config.getD defaultPersistedR2) := by
  refine ⟨rfl, fun ms => rfl, fun d => ⟨rfl, rfl⟩⟩

section SplitLemmas

/-- `split` never returns an empty array. -/
theorem splitNl_ne_nil (l : List Char) : splitNl l ≠ [] := by
  cases l with
  | nil => simp [splitNl]
  | cons c cs =>
    simp only [splitNl]
    split
    · simp
    · split <;> simp

/-- The number of segments is one more than the number of newlines. -/
theorem splitNl_length (l : List Char) :
    (splitNl l).length = l.count '\n' + 1 := by
  induction l with
  | nil => simp [splitNl]
  | cons c cs ih =>
    by_cases h : c = '\n'
    · subst h
      simp [splitNl, List.count_cons, ih]
    · simp only [splitNl, if_neg h]
      cases hs : splitNl cs with
      | nil => exact absurd hs (splitNl_ne_nil cs)
      | cons s rest =>
        rw [hs] at ih
        simp only [List.length_cons] at ih ⊢
        simp [List.count_cons, h, ih]

/-- A string with no newline splits into the single segment that is the
whole string. -/
theorem splitNl_eq_single (l : List Char) (h : l.count '\n' = 0) :
    splitNl l = [l] := by
  induction l with
  | nil => simp [splitNl]
  | cons c cs ih =>
    have hc : ¬ c = '\n' := by
      intro hc
      subst hc
      simp [List.count_cons] at h
    have hcs : cs.count '\n' = 0 := by
      simp [List.count_cons, hc] at h
      exact h
    simp only [splitNl, if_neg hc, ih hcs]

end SplitLemmas

/-- C6: inserting a single-line text of length `L` at `(line, C)` moves the
cursor to `(line, C + L)`; inserting a text with `K ≥ 1` embedded newlines
moves it to `(line + K, length of the final inserted segment)`. -/
theorem updateCursor_spec (s : String) (p : Pos) :
    (s.toList.count '\n' = 0 →
      updateCursor s p = { line := p.line, ch := p.ch + s.length }) ∧
    (∀ k : Nat, s.toList.count '\n' = k + 1 →
      updateCursor s p = { line := p.line + (k + 1), ch := lastLineLength s }) := by
  constructor
  · intro h0
    have hil : insertedLines s = 0 := by
      show (splitNl s.toList).length - 1 = 0
      rw [splitNl_length, h0]
    have hll : lastLineLength s = s.length := by
      show ((splitNl s.toList).getLastD []).length = s.length
      rw [splitNl_eq_single _ h0]
      rfl
    simp [updateCursor, hil, hll]
  · intro k hk
    have hil : insertedLines s = k + 1 := by
      show (splitNl s.toList).length - 1 = k + 1
      rw [splitNl_length, hk]
      omega
    simp [updateCursor, hil]

/-- Witness for C6: a 3-character single-line insertion at column 5 lands at
column 8; an insertion with two embedded newlines and final segment `de`
lands two lines down at column 2. -/
theorem updateCursor_spec_witness :
    updateCursor "abc" { line := 2, ch := 5 } = { line := 2, ch := 8 } ∧
    updateCursor "a\nbc\nde" { line := 2, ch := 5 } = { line := 4, ch := 2 } := by
  constructor
  · have h := (updateCursor_spec "abc" { line := 2, ch := 5 }).1 (by decide)
    rw [h]
    decide
  · have h := (updateCursor_spec "a\nbc\nde" { line := 2, ch := 5 }).2 1 (by decide)
    rw [h]
    decide

section PipelineLemmas

/-- When every iteration's configuration check fails, the loop emits exactly
one configuration-failure notice per file and leaves the cursor unchanged. -/
theorem processFilesAux_config_fail (cfgAt : Nat → R2Config) (clock : Nat → Nat)
    (outcomes : Nat → Option String) (n : Nat) :
    ∀ (fs : List DroppedFile) (i : Nat) (cur : Pos),
      (∀ j, j < fs.length → configIncomplete (cfgAt (i + j)) = true) →
      processFilesAux cfgAt clock outcomes n i fs cur
        = (fs.map (fun f => Event.notice (failNotice f.name configErrMsg)), cur)
  | [], _, _, _ => rfl
  | f :: fs, i, cur, h => by
    have h0 : configIncomplete (cfgAt i) = true := by
      have hh := h 0 (by simp)
      simpa using hh
    have hrest := processFilesAux_config_fail cfgAt clock outcomes n fs (i + 1) cur
      (fun j hj => by
        have hh := h (j + 1) (by simpa using Nat.succ_lt_succ hj)
        have he : i + (j + 1) = i + 1 + j := by omega
        rw [he] at hh
        exact hh)
    simp [processFilesAux, processOne, h0, hrest]

end PipelineLemmas

/-- Sample configuration with an empty bucket name (incomplete). -/
def cfgEmptyBucket : R2Config :=
  { bucketName := "", accessKeyId := "k", secretAccessKey := "s",
    endpoint := "https://x", region := "auto",
    publicUrl := "https://pub.example.com/", directory := "img" }

/-- Sample configuration with an empty access key ID (incomplete). -/
def cfgNoAccessKey : R2Config :=
  { bucketName := "b", accessKeyId := "", secretAccessKey := "s",
    endpoint := "https://x", region := "auto",
    publicUrl := "https://pub.example.com/", directory := "img" }

/-- Sample complete configuration (the spec's worked example). -/
def cfgFull : R2Config :=
  { bucketName := "b", accessKeyId := "k", secretAccessKey := "s",
    endpoint := "https://x", region := "auto",
    publicUrl := "https://pub.example.com/", directory := "img" }

/-- Sample dropped image file. -/
def fileA : DroppedFile :=
  { name := "a.png", mimeType := "image/png", bytes := [137, 80] }

/-- Second sample dropped image file. -/
def fileB : DroppedFile :=
  { name := "b.png", mimeType := "image/png", bytes := [137, 81] }

/-- Sample non-image dropped file. -/
def filePdf : DroppedFile :=
  { name := "doc.pdf", mimeType := "application/pdf", bytes := [37, 80] }

/-- C3 counterexample: with an incomplete configuration and a two-file
batch, the pipeline does NOT fail with a single batch-level configuration
error — it emits one failure notice per file (two notices, and the second
file is still processed, so the failure is not an immediate batch abort). -/
theorem configError_not_single_cex :
    (processFiles (fun _ => cfgEmptyBucket) (fun _ => 1700000000000) (fun _ => none)
        [fileA, fileB] { line := 0, ch := 0 }).1
      = [Event.notice (failNotice "a.png" configErrMsg),
         Event.notice (failNotice "b.png" configErrMsg)] ∧
    (processFiles (fun _ => cfgEmptyBucket) (fun _ => 1700000000000) (fun _ => none)
        [fileA, fileB] { line := 0, ch := 0 }).1.length ≠ 1 := by
  constructor
  · rfl
  · decide

/-- C3 amended: when the configuration read before a file's upload is
incomplete (any of bucket name, access key ID, secret access key or
endpoint empty), that file's upload fails at the per-file check — the check
runs inside the loop before every file's upload, not hoisted once — so a
batch whose every per-file read is incomplete yields exactly one
configuration-error notice per file, no put-operation, and an unchanged
cursor. -/
theorem configCheck_per_file (cfgAt : Nat → R2Config) (clock : Nat → Nat)
    (outcomes : Nat → Option String) (files : List DroppedFile) (cur : Pos)
    (h : ∀ j, j < files.length → configIncomplete (cfgAt j) = true) :
    (processFiles cfgAt clock outcomes files cur).1
      = files.map (fun f => Event.notice (failNotice f.name configErrMsg)) ∧
    (processFiles cfgAt clock outcomes files cur).2 = cur ∧
    (∀ e ∈ (processFiles cfgAt clock outcomes files cur).1, e.isPut = false) := by
  have hmain := processFilesAux_config_fail cfgAt clock outcomes files.length files 0 cur
    (fun j hj => by simpa using h j hj)
  have hev : (processFiles cfgAt clock outcomes files cur).1
      = files.map (fun f => Event.notice (failNotice f.name configErrMsg)) := by
    show (processFilesAux cfgAt clock outcomes files.length 0 files cur).1 = _
    rw [hmain]
  have hcur : (processFiles cfgAt clock outcomes files cur).2 = cur := by
    show (processFilesAux cfgAt clock outcomes files.length 0 files cur).2 = cur
    rw [hmain]
  refine ⟨hev, hcur, ?_⟩
  intro e he
  rw [hev] at he
  simp only [List.mem_map] at he
  obtain ⟨f, _, rfl⟩ := he
  rfl

/-- Witness for C3 (amended): a one-file batch under an empty bucket name. -/
theorem configCheck_per_file_witness :
    (∀ j, j < ([fileA] : List DroppedFile).length →
      configIncomplete ((fun _ => cfgEmptyBucket) j) = true) ∧
    ((processFiles (fun _ => cfgEmptyBucket) (fun _ => 1700000000000) (fun _ => none)
        [fileA] { line := 0, ch := 0 }).1
      = [fileA].map (fun f => Event.notice (failNotice f.name configErrMsg)) ∧
     (processFiles (fun _ => cfgEmptyBucket) (fun _ => 1700000000000) (fun _ => none)
        [fileA] { line := 0, ch := 0 }).2 = { line := 0, ch := 0 } ∧
     (∀ e ∈ (processFiles (fun _ => cfgEmptyBucket) (fun _ => 1700000000000)
        (fun _ => none) [fileA] { line := 0, ch := 0 }).1, e.isPut = false)) :=
  ⟨fun _ _ => rfl,
   configCheck_per_file (fun _ => cfgEmptyBucket) (fun _ => 1700000000000)
     (fun _ => none) [fileA] { line := 0, ch := 0 } (fun _ _ => rfl)⟩

/-- C4: per-file error isolation.  First, a file whose configuration check
throws contributes exactly one failure notice naming the file and the
configuration error message, after which the loop continues with the
remaining files from the same cursor.  Second, a file whose upload call
rejects contributes its put-operation and exactly one failure notice naming
the file and the rejection's error message, after which the loop likewise
continues.  Third, the claim's example: a missing `accessKeyId` at every
per-file read makes every file in the batch fail with a configuration-error
notice (one per file, in order) and zero put-operations are invoked. -/
theorem perFile_error_isolation (cfgAt : Nat → R2Config) (clock : Nat → Nat)
    (outcomes : Nat → Option String) :
    (∀ (n i : Nat) (f : DroppedFile) (fs : List DroppedFile) (cur : Pos),
      configIncomplete (cfgAt i) = true →
      processFilesAux cfgAt clock outcomes n i (f :: fs) cur
        = (Event.notice (failNotice f.name configErrMsg)
            :: (processFilesAux cfgAt clock outcomes n (i + 1) fs cur).1,
           (processFilesAux cfgAt clock outcomes n (i + 1) fs cur).2)) ∧
    (∀ (n i : Nat) (f : DroppedFile) (fs : List DroppedFile) (cur : Pos) (msg : String),
      configIncomplete (cfgAt i) = false →
      outcomes i = some msg →
      processFilesAux cfgAt clock outcomes n i (f :: fs) cur
        = (Event.putObject (cfgAt i).bucketName
             (remoteKey (cfgAt i).directory (clock i) f.name) f.bytes f.mimeType
            :: Event.notice (failNotice f.name msg)
            :: (processFilesAux cfgAt clock outcomes n (i + 1) fs cur).1,
           (processFilesAux cfgAt clock outcomes n (i + 1) fs cur).2)) ∧
    (∀ (files : List DroppedFile) (cur : Pos),
      (∀ j, j < files.length → (cfgAt j).accessKeyId = "") →
      (processFiles cfgAt clock outcomes files cur).1
        = files.map (fun f => Event.notice (failNotice f.name configErrMsg)) ∧
      (∀ e ∈ (processFiles cfgAt clock outcomes files cur).1, e.isPut = false)) := by
  refine ⟨?_, ?_, ?_⟩
  · intro n i f fs cur hcfg
    simp [processFilesAux, processOne, hcfg]
  · intro n i f fs cur msg hcfg hout
    simp [processFilesAux, processOne, hcfg, hout]
  · intro files cur h
    have h' : ∀ j, j < files.length → configIncomplete (cfgAt j) = true := by
      intro j hj
      have hk := h j hj
      simp [configIncomplete, hk]
    have hmain := processFilesAux_config_fail cfgAt clock outcomes files.length files 0 cur
      (fun j hj => by simpa using h' j hj)
    have hev : (processFiles cfgAt clock outcomes files cur).1
        = files.map (fun f => Event.notice (failNotice f.name configErrMsg)) := by
      show (processFilesAux cfgAt clock outcomes files.length 0 files cur).1 = _
      rw [hmain]
    refine ⟨hev, ?_⟩
    intro e he
    rw [hev] at he
    simp only [List.mem_map] at he
    obtain ⟨f, _, rfl⟩ := he
    rfl

/-- Witness for C4: under an empty access key ID, the first file of a
two-file batch fails with its own notice and the loop continues with the
second file; under a complete configuration whose upload rejects with
`AccessDenied`, the first file contributes its put plus one failure notice
and the loop continues; and the whole missing-access-key batch yields two
notices and zero puts. -/
theorem perFile_error_isolation_witness :
    (processFilesAux (fun _ => cfgNoAccessKey) (fun _ => 7) (fun _ => none) 2 0
        [fileA, fileB] { line := 0, ch := 0 }
      = (Event.notice (failNotice fileA.name configErrMsg)
          :: (processFilesAux (fun _ => cfgNoAccessKey) (fun _ => 7) (fun _ => none) 2 1
                [fileB] { line := 0, ch := 0 }).1,
         (processFilesAux (fun _ => cfgNoAccessKey) (fun _ => 7) (fun _ => none) 2 1
            [fileB] { line := 0, ch := 0 }).2)) ∧
    (processFilesAux (fun _ => cfgFull) (fun _ => 7) (fun _ => some "AccessDenied") 2 0
        [fileA, fileB] { line := 0, ch := 0 }
      = (Event.putObject cfgFull.bucketName (remoteKey cfgFull.directory 7 fileA.name)
            fileA.bytes fileA.mimeType
          :: Event.notice (failNotice fileA.name "AccessDenied")
          :: (processFilesAux (fun _ => cfgFull) (fun _ => 7) (fun _ => some "AccessDenied") 2 1
                [fileB] { line := 0, ch := 0 }).1,
         (processFilesAux (fun _ => cfgFull) (fun _ => 7) (fun _ => some "AccessDenied") 2 1
            [fileB] { line := 0, ch := 0 }).2)) ∧
    ((processFiles (fun _ => cfgNoAccessKey) (fun _ => 7) (fun _ => none)
        [fileA, fileB] { line := 0, ch := 0 }).1
      = [fileA, fileB].map (fun f => Event.notice (failNotice f.name configErrMsg)) ∧
     (∀ e ∈ (processFiles (fun _ => cfgNoAccessKey) (fun _ => 7) (fun _ => none)
        [fileA, fileB] { line := 0, ch := 0 }).1, e.isPut = false)) :=
  ⟨(perFile_error_isolation (fun _ => cfgNoAccessKey) (fun _ => 7) (fun _ => none)).1
     2 0 fileA [fileB] { line := 0, ch := 0 } rfl,
   (perFile_error_isolation (fun _ => cfgFull) (fun _ => 7)
       (fun _ => some "AccessDenied")).2.1
     2 0 fileA [fileB] { line := 0, ch := 0 } "AccessDenied" rfl rfl,
   (perFile_error_isolation (fun _ => cfgNoAccessKey) (fun _ => 7) (fun _ => none)).2.2
     [fileA, fileB] { line := 0, ch := 0 } (fun _ _ => rfl)⟩

/-- C7: for a successfully processed file (complete configuration, upload
resolves) at index `i` of an `n`-file batch, every file but the last is
followed by one extra inserted newline that advances the cursor to column 0
of the next line; the last file gets no trailing newline and the cursor
stays right after its link. -/
theorem newline_between_files (cfg : R2Config) (t i n : Nat) (f : DroppedFile)
    (cur : Pos) (link : String)
    (hc : configIncomplete cfg = false) (hin : i < n)
    (hlink : link = markdownLink f (fileUrl cfg.publicUrl (remoteKey cfg.directory t f.name))) :
    (i < n - 1 →
      processOne cfg t none i n f cur
        = ([Event.putObject cfg.bucketName (remoteKey cfg.directory t f.name) f.bytes f.mimeType,
            Event.insertText link cur,
            Event.insertText "\n" (updateCursor link cur),
            Event.notice (successNotice f.name)],
           { line := (updateCursor link cur).line + 1, ch := 0 })) ∧
    (i = n - 1 →
      processOne cfg t none i n f cur
        = ([Event.putObject cfg.bucketName (remoteKey cfg.directory t f.name) f.bytes f.mimeType,
            Event.insertText link cur,
            Event.notice (successNotice f.name)],
           updateCursor link cur)) := by
  subst hlink
  constructor
  · intro hlt
    have hcond : n > 1 ∧ i ≠ n - 1 := by omega
    simp [processOne, hc, hcond]
  · intro heq
    have hcond : ¬ (n > 1 ∧ i ≠ n - 1) := by omega
    simp [processOne, hc, hcond]

/-- Witness for C7: the first file of a batch of three gets a trailing
newline; the last file of a batch of three does not. -/
theorem newline_between_files_witness :
    (configIncomplete cfgFull = false ∧ (0 : Nat) < 3 ∧
     ("![a.png](https://pub.example.com/img/7_a.png)" : String)
       = markdownLink fileA (fileUrl cfgFull.publicUrl (remoteKey cfgFull.directory 7 fileA.name))) ∧
    ((0 < 3 - 1 →
      processOne cfgFull 7 none 0 3 fileA { line := 0, ch := 0 }
        = ([Event.putObject cfgFull.bucketName (remoteKey cfgFull.directory 7 fileA.name)
              fileA.bytes fileA.mimeType,
            Event.insertText "![a.png](https://pub.example.com/img/7_a.png)" { line := 0, ch := 0 },
            Event.insertText "\n"
              (updateCursor "![a.png](https://pub.example.com/img/7_a.png)" { line := 0, ch := 0 }),
            Event.notice (successNotice fileA.name)],
           { line := (updateCursor "![a.png](https://pub.example.com/img/7_a.png)"
                { line := 0, ch := 0 }).line + 1, ch := 0 })) ∧
     ((0 : Nat) = 3 - 1 →
      processOne cfgFull 7 none 0 3 fileA { line := 0, ch := 0 }
        = ([Event.putObject cfgFull.bucketName (remoteKey cfgFull.directory 7 fileA.name)
              fileA.bytes fileA.mimeType,
            Event.insertText "![a.png](https://pub.example.com/img/7_a.png)" { line := 0, ch := 0 },
            Event.notice (successNotice fileA.name)],
           updateCursor "![a.png](https://pub.example.com/img/7_a.png)" { line := 0, ch := 0 }))) :=
  ⟨⟨rfl, by omega, by decide⟩,
   newline_between_files cfgFull 7 0 3 fileA { line := 0, ch := 0 }
     "![a.png](https://pub.example.com/img/7_a.png)" rfl (by omega) (by decide)⟩

/-- C10: a file whose processing fails before link insertion — the
configuration check throws, or the upload call rejects — contributes no
editor insertion and leaves the running cursor unchanged, so the next
file's link starts exactly where the failed file's link would have. -/
theorem failed_file_no_insert (cfg : R2Config) (t : Nat) (outcome : Option String)
    (i n : Nat) (f : DroppedFile) (cur : Pos)
    (h : configIncomplete cfg = true ∨ outcome.isSome = true) :
    (processOne cfg t outcome i n f cur).2 = cur ∧
    (∀ e ∈ (processOne cfg t outcome i n f cur).1, e.isInsert = false) := by
  by_cases hcfg : configIncomplete cfg = true
  · constructor
    · simp [processOne, hcfg]
    · intro e he
      simp [processOne, hcfg] at he
      subst he
      rfl
  · have hcfg' : configIncomplete cfg = false := by
      simpa using hcfg
    rcases h with h | h
    · exact absurd h hcfg
    · cases outcome with
      | none => simp at h
      | some msg =>
        constructor
        · simp [processOne, hcfg']
        · intro e he
          simp [processOne, hcfg'] at he
          rcases he with he | he <;> (subst he; rfl)

/-- Witness for C10: a complete configuration whose upload is rejected with
an `AccessDenied` message — cursor unchanged, no insertion. -/
theorem failed_file_no_insert_witness :
    (configIncomplete cfgFull = true ∨ (some "AccessDenied" : Option String).isSome = true) ∧
    ((processOne cfgFull 7 (some "AccessDenied") 0 2 fileA { line := 3, ch := 4 }).2
        = { line := 3, ch := 4 } ∧
     (∀ e ∈ (processOne cfgFull 7 (some "AccessDenied") 0 2 fileA { line := 3, ch := 4 }).1,
        e.isInsert = false)) :=
  ⟨Or.inr rfl,
   failed_file_no_insert cfgFull 7 (some "AccessDenied") 0 2 fileA { line := 3, ch := 4 }
     (Or.inr rfl)⟩

/-- C8: a drop whose payload holds no image-typed file is left entirely
alone — the drop listener suppresses nothing and produces no upload,
insertion or notice, and the dragover listener does not prevent the
default either. -/
theorem no_image_drop_noop (cfgAt : Nat → R2Config) (clock : Nat → Nat)
    (outcomes : Nat → Option String) (files : List DroppedFile)
    (activeView : Option Pos) (activeFile : Bool)
    (h : files.filter isImageFile = []) :
    handleDropListener cfgAt clock outcomes files activeView activeFile
      = { defaultPrevented := false, events := [] } ∧
    handleDragOverFn files = false := by
  have hall : ∀ x ∈ files, ¬ isImageFile x = true := List.filter_eq_nil_iff.mp h
  constructor
  · by_cases hnil : files = []
    · simp [handleDropListener, hnil]
    · simp [handleDropListener, hnil, h]
  · by_cases hnil : files = []
    · simp [handleDragOverFn, hnil]
    · have hany : files.any isImageFile = false := by
        rw [Bool.eq_false_iff]
        intro ha
        obtain ⟨x, hx, hpx⟩ := List.any_eq_true.mp ha
        exact hall x hx hpx
      simp [handleDragOverFn, hnil, hany]

/-- Witness for C8: a single PDF drop changes nothing. -/
theorem no_image_drop_noop_witness :
    (([filePdf] : List DroppedFile).filter isImageFile = []) ∧
    (handleDropListener (fun _ => cfgFull) (fun _ => 7) (fun _ => none)
        [filePdf] (some { line := 0, ch := 0 }) true
      = { defaultPrevented := false, events := [] } ∧
     handleDragOverFn [filePdf] = false) :=
  ⟨rfl,
   no_image_drop_noop (fun _ => cfgFull) (fun _ => 7) (fun _ => none)
     [filePdf] (some { line := 0, ch := 0 }) true rfl⟩

/-- C9: a drop that mixes image and non-image files suppresses the default
handling for the whole event but processes exactly the image files: the
resulting behavior is identical to dropping only the image-typed files, so
every non-image file is silently discarded. -/
theorem mixed_drop_images_only (cfgAt : Nat → R2Config) (clock : Nat → Nat)
    (outcomes : Nat → Option String) (files : List DroppedFile)
    (activeFile : Bool) (cur : Pos)
    (h : files.filter isImageFile ≠ []) :
    handleDropListener cfgAt clock outcomes files (some cur) activeFile
      = { defaultPrevented := true,
          events := (handleDropMethod cfgAt clock outcomes (files.filter isImageFile)
                       activeFile cur).1 } ∧
    handleDropListener cfgAt clock outcomes files (some cur) activeFile
      = handleDropListener cfgAt clock outcomes (files.filter isImageFile)
          (some cur) activeFile := by
  have hnil : files ≠ [] := by
    intro hf
    rw [hf] at h
    simp at h
  have hfilter2 : (files.filter isImageFile).filter isImageFile
      = files.filter isImageFile := by
    apply List.filter_eq_self.mpr
    intro a ha
    exact List.of_mem_filter ha
  constructor
  · simp [handleDropListener, hnil, h]
  · simp [handleDropListener, hnil, h, hfilter2]

/-- Witness for C9: an image plus a PDF behaves exactly like the image
alone, with the default suppressed. -/
theorem mixed_drop_images_only_witness :
    (([fileA, filePdf] : List DroppedFile).filter isImageFile ≠ []) ∧
    (handleDropListener (fun _ => cfgFull) (fun _ => 7) (fun _ => none)
        [fileA, filePdf] (some { line := 0, ch := 0 }) true
      = { defaultPrevented := true,
          events := (handleDropMethod (fun _ => cfgFull) (fun _ => 7) (fun _ => none)
                       ([fileA, filePdf].filter isImageFile) true { line := 0, ch := 0 }).1 } ∧
     handleDropListener (fun _ => cfgFull) (fun _ => 7) (fun _ => none)
        [fileA, filePdf] (some { line := 0, ch := 0 }) true
      = handleDropListener (fun _ => cfgFull) (fun _ => 7) (fun _ => none)
          ([fileA, filePdf].filter isImageFile) (some { line := 0, ch := 0 }) true) :=
  ⟨by decide,
   mixed_drop_images_only (fun _ => cfgFull) (fun _ => 7) (fun _ => none)
     [fileA, filePdf] true { line := 0, ch := 0 } (by decide)⟩

end RemoteAttachments
